import Mathlib

set_option linter.unusedVariables false

/-!
Verification of the ONDS VWAP band trading scripts.

The definitions below are shallow embeddings of the Python sources:
* `simulate_onds_vwap_only.py` — `TradingSimulator` (VWAP columns, buy/sell/
  close buttons, deviation controls, `check_auto_trade`);
* `animate_onds.py` — the `sim_state` ledger with `execute_buy`/`execute_sell`;
* `real_trade_onds.py` — `RealTrader.close_position`'s order placement.

Prices, cash and volumes are modelled as rationals (the Python floats),
share counts as integers (the Python ints).
-/

namespace Onds

/-- One OHLCV bar of the per-minute dataframe (a row of `day_data`).
`timestamp` is the row's `Datetime`, modelled as an integer instant. -/
structure Bar where
  timestamp : ℤ
  openP : ℚ
  high : ℚ
  low : ℚ
  close : ℚ
  volume : ℚ
deriving DecidableEq, Repr

/-- `data['Typical_Price'] = (data['High'] + data['Low'] + data['Close']) / 3`. -/
def typicalPrice (b : Bar) : ℚ := (b.high + b.low + b.close) / 3

/-- `data['VP'] = data['Typical_Price'] * data['Volume']`. -/
def vp (b : Bar) : ℚ := typicalPrice b * b.volume

/-- The cumulative VWAP state after some prefix of rows: the entries of the
`Cum_VP`, `Cum_Vol` and `VWAP` columns at that row. -/
structure VWAPState where
  cumVP : ℚ
  cumVol : ℚ
  vwap : ℚ
deriving DecidableEq, Repr

/-- Row step of the column computations
`Cum_VP = VP.cumsum()`, `Cum_Vol = Volume.cumsum()`, `VWAP = Cum_VP / Cum_Vol`:
the cumulative sums extend by the row's `VP` and `Volume` and the quotient is
recomputed.  `cumsum` is purely positional: no timestamp is consulted. -/
def ingest (s : VWAPState) (b : Bar) : VWAPState :=
  let cvp := s.cumVP + vp b
  let cv := s.cumVol + b.volume
  { cumVP := cvp, cumVol := cv, vwap := cvp / cv }

/-- State before any row: empty cumulative sums. -/
def initVWAP : VWAPState := { cumVP := 0, cumVol := 0, vwap := 0 }

/-- The VWAP columns evaluated at the end of a bar prefix. -/
def vwapEngine (bars : List Bar) : VWAPState := bars.foldl ingest initVWAP

lemma vwapEngine_append (bars : List Bar) (b : Bar) :
    vwapEngine (bars ++ [b]) = ingest (vwapEngine bars) b := by
  simp [vwapEngine, List.foldl_append]

lemma vwapEngine_cumVP (bars : List Bar) :
    (vwapEngine bars).cumVP = (bars.map vp).sum := by
  induction bars using List.reverseRecOn with
  | nil => rfl
  | append_singleton xs x ih =>
      simp [vwapEngine_append, ingest, ih]

lemma vwapEngine_cumVol (bars : List Bar) :
    (vwapEngine bars).cumVol = (bars.map Bar.volume).sum := by
  induction bars using List.reverseRecOn with
  | nil => rfl
  | append_singleton xs x ih =>
      simp [vwapEngine_append, ingest, ih]

lemma vwapEngine_vwap (bars : List Bar) :
    (vwapEngine bars).vwap = (vwapEngine bars).cumVP / (vwapEngine bars).cumVol := by
  induction bars using List.reverseRecOn with
  | nil => simp [vwapEngine, initVWAP]
  | append_singleton xs x ih =>
      simp [vwapEngine_append, ingest]

/-- Mutable ledger of `TradingSimulator`: `self.cash`, `self.position`,
`self.current_price`.  `self.equity` and `self.pl` are recomputed from these
by `update_metrics` after every mutation, so they are modelled as derived
functions rather than stored fields. -/
structure SimState where
  cash : ℚ
  position : ℤ
  current_price : ℚ
deriving DecidableEq, Repr

/-- `INITIAL_CASH = 10000.0`. -/
def INITIAL_CASH : ℚ := 10000

/-- `TRADE_QTY = 1`. -/
def TRADE_QTY : ℤ := 1

/-- `self.equity = self.cash + (self.position * self.current_price)`. -/
def equity (s : SimState) : ℚ := s.cash + s.position * s.current_price

/-- `self.pl = self.equity - INITIAL_CASH`. -/
def pl (s : SimState) : ℚ := equity s - INITIAL_CASH

/-- `TradingSimulator.buy`: `cash -= price*TRADE_QTY; position += TRADE_QTY`. -/
def buy (s : SimState) : SimState :=
  { s with cash := s.cash - s.current_price * TRADE_QTY,
           position := s.position + TRADE_QTY }

/-- `TradingSimulator.sell`: `cash += price*TRADE_QTY; position -= TRADE_QTY`
(no check of the held position at all). -/
def sell (s : SimState) : SimState :=
  { s with cash := s.cash + s.current_price * TRADE_QTY,
           position := s.position - TRADE_QTY }

/-- `TradingSimulator.close_position`: early-returns when `position == 0`,
otherwise sells the whole position at the current price. -/
def close_position (s : SimState) : SimState :=
  if s.position = 0 then s
  else { s with cash := s.cash + s.position * s.current_price, position := 0 }

/-- A trade action emitted by `check_auto_trade` (a `self.buy(None)` or a
`self.close_position(None)` call). -/
inductive AutoAction
  | buySignal
  | closeSignal
deriving DecidableEq, Repr

/-- The two lower-band rules of `check_auto_trade` (the `if`/`elif` chain):
uptrend + touch of the lower band buys one share; downtrend + touch of the
lower band closes a positive position. -/
def lowerBandRules (currentVwap pastVwap currentLow lowerBandVal : ℚ)
    (s : SimState) : SimState × List AutoAction :=
  if currentVwap > pastVwap ∧ currentLow ≤ lowerBandVal then
    (buy s, [AutoAction.buySignal])
  else if ¬ (currentVwap > pastVwap) ∧ currentLow ≤ lowerBandVal then
    (if 0 < s.position then (close_position s, [AutoAction.closeSignal]) else (s, []))
  else (s, [])

/-- The separate take-profit `if` of `check_auto_trade`: it runs after the
lower-band rules, reading the position and `self.pl` as already mutated by
them. -/
def upperBandRule (currentHigh upperBandVal : ℚ)
    (r : SimState × List AutoAction) : SimState × List AutoAction :=
  if 0 < r.1.position ∧ currentHigh ≥ upperBandVal ∧ 0 < pl r.1 then
    (close_position r.1, r.2 ++ [AutoAction.closeSignal])
  else r

/-- `TradingSimulator.check_auto_trade`.  Early-returns when auto trading is
off or `len(subset) < 5`; otherwise evaluates the lower-band `if`/`elif`
rules followed by the independent take-profit `if`.  `currentVwap` is
`subset['VWAP'].iloc[-1]`, `pastVwap` is `subset['VWAP'].iloc[-4]`,
`currentLow`/`currentHigh` are the last bar's low/high. -/
def check_auto_trade (autoTradeEnabled : Bool) (subsetLen : ℕ)
    (currentVwap pastVwap currentLow currentHigh upperBandVal lowerBandVal : ℚ)
    (s : SimState) : SimState × List AutoAction :=
  if ¬ autoTradeEnabled ∨ subsetLen < 5 then (s, [])
  else upperBandRule currentHigh upperBandVal
    (lowerBandRules currentVwap pastVwap currentLow lowerBandVal s)

/-- The simulation run over consecutive ticks whose detector inputs are all
identical (the condition persisting unchanged), collecting every emitted
action.  `subsetLen` is held at a value ≥ 5 so the history guard passes. -/
def repeatAutoTicks (subsetLen : ℕ)
    (currentVwap pastVwap currentLow currentHigh upperBandVal lowerBandVal : ℚ) :
    ℕ → SimState → SimState × List AutoAction
  | 0, s => (s, [])
  | k + 1, s =>
      let r := check_auto_trade true subsetLen currentVwap pastVwap currentLow
        currentHigh upperBandVal lowerBandVal s
      let rest := repeatAutoTicks subsetLen currentVwap pastVwap currentLow
        currentHigh upperBandVal lowerBandVal k r.1
      (rest.1, r.2 ++ rest.2)

/-- Broker order kinds used by `RealTrader` (`order.OrderType`). -/
inductive OrderType
  | buyOrd
  | sellOrd
  | buyToCoverOrd
deriving DecidableEq, Repr

/-- `RealTrader.place_real_order`: the order type is
`OrderType.BUY if side == 'BUY' else OrderType.SELL`. -/
def place_real_order (side : String) (qty : ℤ) : OrderType × ℤ :=
  (if side = "BUY" then OrderType.buyOrd else OrderType.sellOrd, qty)

/-- `RealTrader.close_position`, as the list of broker orders it places for a
broker-reported position `qty` (share counts modelled as integers): a long
position is sold; a short position triggers `place_real_order('BUY_TO_COVER',
|qty|)` followed by the explicit `BUY_TO_COVER` order of the `try` block;
a flat position places nothing. -/
def close_position_real (qty : ℤ) : List (OrderType × ℤ) :=
  if 0 < qty then [place_real_order "SELL" qty]
  else if qty < 0 then
    [place_real_order "BUY_TO_COVER" |qty|, (OrderType.buyToCoverOrd, |qty|)]
  else []

/-- The `sim_state` ledger of `animate_onds.py`: `position`, `avg_price`,
`cash`, `realized_pnl` (the current price is passed to each fill at call
time). -/
structure Ledger where
  position : ℤ
  avg_price : ℚ
  cash : ℚ
  realized_pnl : ℚ
deriving DecidableEq, Repr

/-- `sim_state` at start: position 0, average price 0.0, cash 10000.0,
realized PnL 0.0. -/
def initLedger : Ledger := { position := 0, avg_price := 0, cash := 10000, realized_pnl := 0 }

/-- `execute_buy(qty)` at the current price: guarded by `price > 0`;
`total_cost = position*avg_price + price*qty`, the position grows by `qty`,
`avg_price = total_cost / position`, and cash drops by `price*qty`. -/
def execute_buy (st : Ledger) (qty : ℤ) (price : ℚ) : Ledger :=
  if 0 < price then
    let total_cost := (st.position : ℚ) * st.avg_price + price * qty
    let newPos := st.position + qty
    { position := newPos, avg_price := total_cost / (newPos : ℚ),
      cash := st.cash - price * qty, realized_pnl := st.realized_pnl }
  else st

/-- `execute_sell(qty)` at the current price: guarded by
`price > 0 and position > 0`; `qty_to_sell = min(qty, position)`,
`pnl = (price - avg_price)*qty_to_sell` is realized, cash grows by
`price*qty_to_sell`, the position shrinks by `qty_to_sell`, and `avg_price`
resets to 0.0 whenever the position reaches 0. -/
def execute_sell (st : Ledger) (qty : ℤ) (price : ℚ) : Ledger :=
  if 0 < price ∧ 0 < st.position then
    let qty_to_sell := min qty st.position
    let pnl := (price - st.avg_price) * (qty_to_sell : ℚ)
    let newPos := st.position - qty_to_sell
    { position := newPos,
      avg_price := if newPos = 0 then 0 else st.avg_price,
      cash := st.cash + price * qty_to_sell,
      realized_pnl := st.realized_pnl + pnl }
  else st

/-- `unrealized_pnl = (current_close - sim_state['avg_price']) *
sim_state['position']` (0 whenever the position is 0, since a flat ledger has
`avg_price = 0`). -/
def unrealized_pnl (st : Ledger) (price : ℚ) : ℚ :=
  (price - st.avg_price) * (st.position : ℚ)

/-- One confirmed fill routed through the `animate_onds` ledger: an
`execute_buy` or an `execute_sell`, each carrying its quantity and the
current price at fill time. -/
inductive Fill
  | buyF (qty : ℤ) (price : ℚ)
  | sellF (qty : ℤ) (price : ℚ)
deriving DecidableEq, Repr

/-- Apply a single fill to the ledger. -/
def applyFill (st : Ledger) : Fill → Ledger
  | .buyF qty price => execute_buy st qty price
  | .sellF qty price => execute_sell st qty price

/-- Apply a whole fill sequence, oldest first, starting from `sim_state`'s
initial values. -/
def applyFills (fills : List Fill) : Ledger := fills.foldl applyFill initLedger

/-- A fill as actually issued by the script: every buy carries a positive
quantity (`execute_buy(1)` from the button and the crossing rule). -/
def okFill : Fill → Prop
  | .buyF qty _ => 0 < qty
  | .sellF _ _ => True

/-- The conservation form of the ledger: cash accounts for the initial
balance, the realized PnL and the open position's cost basis; the position is
never negative. -/
def ledgerSound (st : Ledger) : Prop :=
  st.cash = 10000 + st.realized_pnl - st.avg_price * (st.position : ℚ) ∧ 0 ≤ st.position

lemma ledgerSound_buy {st : Ledger} (h : ledgerSound st) {qty : ℤ} (hq : 0 < qty)
    (price : ℚ) : ledgerSound (execute_buy st qty price) := by
  obtain ⟨hcash, hpos⟩ := h
  simp only [ledgerSound, execute_buy]
  split
  · dsimp only
    have hne : ((st.position + qty : ℤ) : ℚ) ≠ 0 := by
      have hlt : (0 : ℤ) < st.position + qty := by omega
      exact_mod_cast hlt.ne'
    refine ⟨?_, by omega⟩
    rw [div_mul_cancel₀ _ hne, hcash]
    ring
  · exact ⟨hcash, hpos⟩

lemma ledgerSound_sell {st : Ledger} (h : ledgerSound st) (qty : ℤ) (price : ℚ) :
    ledgerSound (execute_sell st qty price) := by
  obtain ⟨hcash, hpos⟩ := h
  simp only [ledgerSound, execute_sell]
  split
  · dsimp only
    refine ⟨?_, by omega⟩
    split
    · rename_i hzero
      have hm : min qty st.position = st.position := by omega
      rw [hcash, hm]
      push_cast
      ring
    · rw [hcash]
      push_cast
      ring
  · exact ⟨hcash, hpos⟩

lemma ledgerSound_applyFills (fills : List Fill) (hok : ∀ f ∈ fills, okFill f) :
    ledgerSound (applyFills fills) := by
  have key : ∀ (l : List Fill) (st : Ledger), (∀ f ∈ l, okFill f) →
      ledgerSound st → ledgerSound (l.foldl applyFill st) := by
    intro l
    induction l with
    | nil => intro st _ hst; simpa using hst
    | cons f fs ih =>
        intro st hl hst
        have hf : okFill f := hl f (List.mem_cons_self f fs)
        have hfs : ∀ g ∈ fs, okFill g := fun g hg => hl g (List.mem_cons_of_mem f hg)
        refine ih _ hfs ?_
        cases f with
        | buyF qty price => exact ledgerSound_buy hst hf price
        | sellF qty price => exact ledgerSound_sell hst qty price
  refine key fills initLedger hok ?_
  exact ⟨by norm_num [initLedger], by norm_num [initLedger]⟩

end Onds

namespace Onds

/-- A press of the `+` / `-` deviation buttons
(`increase_dev` / `decrease_dev` in `TradingSimulator`). -/
inductive DevCmd
  | devUp
  | devDown
deriving DecidableEq, Repr

/-- `increase_dev`: `self.deviation += 0.0005`;
`decrease_dev`: `self.deviation = max(0.0, self.deviation - 0.0005)`. -/
def devStep (d : ℚ) : DevCmd → ℚ
  | .devUp => d + 5 / 10000
  | .devDown => max 0 (d - 5 / 10000)

/-- Deviation reached from the initial `self.deviation = 0.01` after a
sequence of button presses. -/
def deviationAfter (cmds : List DevCmd) : ℚ := cmds.foldl devStep (1 / 100)

/-- An OHLCV bar with nonnegative prices and volume, as delivered by the
market-data feed. -/
def nonnegBar (b : Bar) : Prop :=
  0 ≤ b.high ∧ 0 ≤ b.low ∧ 0 ≤ b.close ∧ 0 ≤ b.volume

lemma devStep_nonneg {d : ℚ} (hd : 0 ≤ d) (c : DevCmd) : 0 ≤ devStep d c := by
  cases c with
  | devUp => simp only [devStep]; positivity
  | devDown => simp [devStep]

lemma deviationAfter_nonneg (cmds : List DevCmd) : 0 ≤ deviationAfter cmds := by
  have key : ∀ (l : List DevCmd) (d : ℚ), 0 ≤ d → 0 ≤ l.foldl devStep d := by
    intro l
    induction l with
    | nil => intro d hd; simpa using hd
    | cons c cs ih => intro d hd; exact ih _ (devStep_nonneg hd c)
  exact key cmds (1 / 100) (by norm_num)

lemma vp_nonneg {b : Bar} (hb : nonnegBar b) : 0 ≤ vp b := by
  obtain ⟨h1, h2, h3, h4⟩ := hb
  have : 0 ≤ typicalPrice b := by
    unfold typicalPrice; positivity
  exact mul_nonneg this h4

lemma vwap_nonneg {bars : List Bar} (hb : ∀ b ∈ bars, nonnegBar b) :
    0 ≤ (vwapEngine bars).vwap := by
  rw [vwapEngine_vwap, vwapEngine_cumVP, vwapEngine_cumVol]
  apply div_nonneg
  · apply List.sum_nonneg
    intro x hx
    obtain ⟨b, hbmem, rfl⟩ := List.mem_map.mp hx
    exact vp_nonneg (hb b hbmem)
  · apply List.sum_nonneg
    intro x hx
    obtain ⟨b, hbmem, rfl⟩ := List.mem_map.mp hx
    exact (hb b hbmem).2.2.2

/-- C1 — For every bar prefix, the computed VWAP equals
Σ typicalPrice_i·volume_i / Σ volume_i whenever the cumulative volume is
positive.  In the exact (rational) semantics the equality is exact, hence in
particular within the claimed 1e-9 relative tolerance. -/
theorem vwap_exactness (bars : List Bar)
    (hvol : 0 < (bars.map Bar.volume).sum) :
    (vwapEngine bars).vwap =
      (bars.map (fun b => typicalPrice b * b.volume)).sum /
        (bars.map Bar.volume).sum := by
  have h := vwapEngine_vwap bars
  rw [h, vwapEngine_cumVP, vwapEngine_cumVol]
  rfl

/-- Witness for C1: three concrete bars with positive total volume. -/
theorem vwap_exactness_witness :
    (0 : ℚ) <
        (([⟨0, 10, 21/2, 49/5, 51/5, 100⟩, ⟨1, 10, 11, 9, 10, 50⟩,
           ⟨2, 10, 12, 10, 11, 25⟩] : List Bar).map Bar.volume).sum ∧
      (vwapEngine [⟨0, 10, 21/2, 49/5, 51/5, 100⟩, ⟨1, 10, 11, 9, 10, 50⟩,
           ⟨2, 10, 12, 10, 11, 25⟩]).vwap =
        (([⟨0, 10, 21/2, 49/5, 51/5, 100⟩, ⟨1, 10, 11, 9, 10, 50⟩,
           ⟨2, 10, 12, 10, 11, 25⟩] : List Bar).map
            (fun b => typicalPrice b * b.volume)).sum /
          (([⟨0, 10, 21/2, 49/5, 51/5, 100⟩, ⟨1, 10, 11, 9, 10, 50⟩,
           ⟨2, 10, 12, 10, 11, 25⟩] : List Bar).map Bar.volume).sum :=
  ⟨by norm_num,
   vwap_exactness _ (by norm_num)⟩

/-- C3, counterexample — the cumulative columns are positional `cumsum`s with
no timestamp check: a bar whose timestamp is not greater than the last one is
accumulated all the same, so the engine state does change. -/
theorem out_of_order_bar_changes_state :
    (⟨3, 10, 11, 9, 10, 50⟩ : Bar).timestamp ≤ (⟨5, 10, 11, 9, 10, 100⟩ : Bar).timestamp ∧
      vwapEngine [⟨5, 10, 11, 9, 10, 100⟩, ⟨3, 10, 11, 9, 10, 50⟩] ≠
        vwapEngine [⟨5, 10, 11, 9, 10, 100⟩] := by
  refine ⟨by norm_num, ?_⟩
  intro h
  have := congrArg VWAPState.cumVol h
  simp [vwapEngine, ingest, initVWAP] at this

/-- C3, amended — ingesting a bar whose timestamp is not strictly greater than
the last ingested timestamp is NOT rejected: the row is accumulated exactly
like an in-order row (`cumVP += vp`, `cumVol += volume`), and whenever the
bar's volume is nonzero the cumulative volume actually changes. -/
theorem out_of_order_bar_accumulated (s : VWAPState) (lastTs : ℤ) (b : Bar)
    (hts : b.timestamp ≤ lastTs) (hv : b.volume ≠ 0) :
    (ingest s b).cumVP = s.cumVP + vp b ∧
      (ingest s b).cumVol = s.cumVol + b.volume ∧
      (ingest s b).cumVol ≠ s.cumVol := by
  refine ⟨rfl, rfl, ?_⟩
  simp only [ingest]
  intro h
  exact hv (by linarith [h])

/-- Witness for C3's amended statement: a concrete stale-timestamped bar with
nonzero volume is accumulated, not ignored. -/
theorem out_of_order_bar_accumulated_witness :
    (ingest ⟨1000, 100, 10⟩ ⟨3, 10, 11, 9, 10, 50⟩).cumVP = 1000 + vp ⟨3, 10, 11, 9, 10, 50⟩ ∧
      (ingest ⟨1000, 100, 10⟩ ⟨3, 10, 11, 9, 10, 50⟩).cumVol = 100 + 50 ∧
      (ingest ⟨1000, 100, 10⟩ ⟨3, 10, 11, 9, 10, 50⟩).cumVol ≠ 100 :=
  out_of_order_bar_accumulated ⟨1000, 100, 10⟩ 5 ⟨3, 10, 11, 9, 10, 50⟩
    (by norm_num) (by norm_num)

/-- C8 — for every deviation reachable through the `+`/`-` controls and every
tick of nonnegative OHLCV data with a defined VWAP (positive cumulative
volume), the bands `lower = vwap·(1−dev)` and `upper = vwap·(1+dev)` satisfy
`lower ≤ vwap ≤ upper`. -/
theorem band_ordering (cmds : List DevCmd) (bars : List Bar)
    (hb : ∀ b ∈ bars, nonnegBar b) (hvol : 0 < (vwapEngine bars).cumVol) :
    (vwapEngine bars).vwap * (1 - deviationAfter cmds) ≤ (vwapEngine bars).vwap ∧
      (vwapEngine bars).vwap ≤ (vwapEngine bars).vwap * (1 + deviationAfter cmds) := by
  have hv : 0 ≤ (vwapEngine bars).vwap := vwap_nonneg hb
  have hd : 0 ≤ deviationAfter cmds := deviationAfter_nonneg cmds
  constructor <;> nlinarith [mul_nonneg hv hd]

/-- Witness for C8: one bar of real-looking data, one `+` press then one `-`
press. -/
theorem band_ordering_witness :
    (∀ b ∈ ([⟨0, 10, 11, 9, 10, 100⟩] : List Bar), nonnegBar b) ∧
      0 < (vwapEngine [⟨0, 10, 11, 9, 10, 100⟩]).cumVol ∧
      ((vwapEngine [⟨0, 10, 11, 9, 10, 100⟩]).vwap *
          (1 - deviationAfter [DevCmd.devUp, DevCmd.devDown]) ≤
        (vwapEngine [⟨0, 10, 11, 9, 10, 100⟩]).vwap ∧
        (vwapEngine [⟨0, 10, 11, 9, 10, 100⟩]).vwap ≤
          (vwapEngine [⟨0, 10, 11, 9, 10, 100⟩]).vwap *
            (1 + deviationAfter [DevCmd.devUp, DevCmd.devDown])) := by
  have h1 : ∀ b ∈ ([⟨0, 10, 11, 9, 10, 100⟩] : List Bar), nonnegBar b := by
    intro b hbm
    simp only [List.mem_singleton] at hbm
    subst hbm
    exact ⟨by norm_num, by norm_num, by norm_num, by norm_num⟩
  have h2 : 0 < (vwapEngine [(⟨0, 10, 11, 9, 10, 100⟩ : Bar)]).cumVol := by
    simp [vwapEngine, ingest, initVWAP]
  exact ⟨h1, h2, band_ordering [DevCmd.devUp, DevCmd.devDown] _ h1 h2⟩

lemma pl_buy (s : SimState) : pl (buy s) = pl s := by
  simp only [pl, equity, buy, TRADE_QTY]
  push_cast
  ring

/-- C5, counterexample — on a tick where the BUY rule and the take-profit
rule both hold, `check_auto_trade` performs TWO trades (a buy, then a
close-all), refuting "at most one trading signal per tick". -/
theorem two_signals_in_one_tick :
    1 < (check_auto_trade true 5 10 9 (49/5) (51/5) (101/10) (99/10)
        ⟨10005, 1, 10⟩).2.length := by
  norm_num [check_auto_trade, lowerBandRules, upperBandRule, buy,
    close_position, pl, equity, INITIAL_CASH, TRADE_QTY]

/-- C5, amended — when both the BUY condition (uptrend, low ≤ lower band) and
the take-profit condition (high ≥ upper band, positive PnL) hold on a tick
with a nonnegative position, the detector emits a BUY and then a CLOSE: two
signals, with the CLOSE evaluated after the BUY (it reads the post-buy
position), so the tick ends flat — the CLOSE overrides the BUY's effect. -/
theorem close_overrides_buy_same_tick (n : ℕ) (cv pv lo hi up lw : ℚ)
    (s : SimState) (hn : 5 ≤ n) (hup : pv < cv) (hlo : lo ≤ lw) (hhi : up ≤ hi)
    (hpos : 0 ≤ s.position) (hpl : 0 < pl s) :
    check_auto_trade true n cv pv lo hi up lw s =
      ({ cash := s.cash + s.position * s.current_price, position := 0,
         current_price := s.current_price }, [AutoAction.buySignal, AutoAction.closeSignal]) := by
  rw [check_auto_trade, if_neg (by push_neg; exact ⟨by simp, by omega⟩)]
  rw [lowerBandRules, if_pos ⟨hup, hlo⟩]
  have hbpos : 0 < (buy s).position := by
    simp only [buy, TRADE_QTY]
    omega
  have hbne : ¬ (buy s).position = 0 := by omega
  rw [upperBandRule, if_pos ⟨hbpos, hhi, by rw [pl_buy]; exact hpl⟩]
  rw [close_position, if_neg hbne]
  have hcash : (buy s).cash + ((buy s).position : ℚ) * (buy s).current_price
      = s.cash + s.position * s.current_price := by
    simp only [buy, TRADE_QTY]
    push_cast
    ring
  rw [Prod.mk.injEq]
  exact ⟨by rw [SimState.mk.injEq]; exact ⟨hcash, rfl, rfl⟩, rfl⟩

/-- Witness for C5's amended statement, at concrete detector inputs. -/
theorem close_overrides_buy_same_tick_witness :
    0 < pl ⟨10005, 1, 10⟩ ∧
      check_auto_trade true 5 10 9 (49/5) (51/5) (101/10) (99/10) ⟨10005, 1, 10⟩ =
        (⟨10015, 0, 10⟩, [AutoAction.buySignal, AutoAction.closeSignal]) := by
  have hpl : 0 < pl ⟨10005, 1, 10⟩ := by norm_num [pl, equity, INITIAL_CASH]
  refine ⟨hpl, ?_⟩
  have h := close_overrides_buy_same_tick 5 10 9 (49/5) (51/5) (101/10) (99/10)
    ⟨10005, 1, 10⟩ (le_refl 5) (by norm_num) (by norm_num) (by norm_num)
    (by norm_num) hpl
  rw [h]
  norm_num [Prod.mk.injEq, SimState.mk.injEq]

/-- C6 — with fewer than 4 VWAP samples available, the detector emits no
signal of any kind and leaves the ledger untouched (the code in fact
early-returns for anything below 5 samples). -/
theorem insufficient_history_no_signal (e : Bool) (n : ℕ)
    (cv pv lo hi up lw : ℚ) (s : SimState) (hn : n < 4) :
    check_auto_trade e n cv pv lo hi up lw s = (s, []) := by
  rw [check_auto_trade, if_pos (Or.inr (by omega))]

/-- Witness for C6: three bars of history produce no signal. -/
theorem insufficient_history_no_signal_witness :
    (3 : ℕ) < 4 ∧
      check_auto_trade true 3 10 9 (49/5) (51/5) (101/10) (99/10) ⟨10000, 0, 10⟩ =
        (⟨10000, 0, 10⟩, []) :=
  ⟨by omega,
   insufficient_history_no_signal true 3 10 9 (49/5) (51/5) (101/10) (99/10)
     ⟨10000, 0, 10⟩ (by omega)⟩

lemma tick_buys (s : SimState) :
    check_auto_trade true 10 10 9 (49/5) 10 (101/10) (99/10) s =
      (buy s, [AutoAction.buySignal]) := by
  rw [check_auto_trade, if_neg (by norm_num)]
  rw [lowerBandRules, if_pos (by norm_num)]
  rw [upperBandRule, if_neg ?_]
  rintro ⟨-, h, -⟩
  norm_num at h

lemma repeatAutoTicks_buys (k : ℕ) (s : SimState) :
    repeatAutoTicks 10 10 9 (49/5) 10 (101/10) (99/10) k s =
      ({ cash := s.cash - s.current_price * k, position := s.position + k,
         current_price := s.current_price },
        List.replicate k AutoAction.buySignal) := by
  induction k generalizing s with
  | zero =>
      rw [repeatAutoTicks]
      rw [Prod.mk.injEq, SimState.mk.injEq]
      refine ⟨⟨by push_cast; ring, by omega, rfl⟩, rfl⟩
  | succ k ih =>
      rw [repeatAutoTicks]
      simp only [tick_buys, ih]
      rw [Prod.mk.injEq, SimState.mk.injEq]
      refine ⟨⟨?_, ?_, rfl⟩, by simp [List.replicate_succ]⟩
      · simp only [buy, TRADE_QTY]
        push_cast
        ring
      · simp only [buy, TRADE_QTY]
        omega

/-- C7 — the reference detector has no debounce: with the BUY condition
(uptrend and low ≤ lower band) holding on 10 consecutive ticks, a BUY fires
on every single tick — 10 BUYs, the position accumulating to 10 shares —
rather than at most one per cooldown window. -/
theorem buy_refires_all_ten_ticks :
    (repeatAutoTicks 10 10 9 (49/5) 10 (101/10) (99/10) 10 ⟨10000, 0, 10⟩).2 =
        List.replicate 10 AutoAction.buySignal ∧
      (repeatAutoTicks 10 10 9 (49/5) 10 (101/10) (99/10) 10 ⟨10000, 0, 10⟩).1.position = 10 := by
  rw [repeatAutoTicks_buys]
  norm_num

/-- C10 — closing a flat position is a no-op: the simulator's
`close_position` early-returns when `position == 0`, and the real trader's
`close_position` places no broker order when the broker-reported quantity is
zero. -/
theorem close_position_flat_noop :
    (∀ s : SimState, s.position = 0 → close_position s = s) ∧
      close_position_real 0 = [] := by
  constructor
  · intro s h
    rw [close_position, if_pos h]
  · rfl

/-- Witness for C10 at a concrete flat state. -/
theorem close_position_flat_noop_witness :
    close_position ⟨123, 0, 7⟩ = ⟨123, 0, 7⟩ ∧ close_position_real 0 = [] :=
  ⟨close_position_flat_noop.1 ⟨123, 0, 7⟩ rfl, close_position_flat_noop.2⟩

/-- C2 — ledger conservation: after any sequence of buy/sell fills (buys with
positive quantity, as the script always issues) and at any subsequent price,
`cash + position·price = initialCash + realizedPnL + unrealizedPnL(price)`. -/
theorem ledger_conservation (fills : List Fill) (price : ℚ)
    (hok : ∀ f ∈ fills, okFill f) :
    (applyFills fills).cash + ((applyFills fills).position : ℚ) * price =
      10000 + (applyFills fills).realized_pnl +
        unrealized_pnl (applyFills fills) price := by
  obtain ⟨hcash, -⟩ := ledgerSound_applyFills fills hok
  rw [hcash, unrealized_pnl]
  ring

/-- Witness for C2: a buy of 1 at 10 then a sell of 1 at 12, marked at
price 11. -/
theorem ledger_conservation_witness :
    (∀ f ∈ [Fill.buyF 1 10, Fill.sellF 1 12], okFill f) ∧
      (applyFills [Fill.buyF 1 10, Fill.sellF 1 12]).cash +
          ((applyFills [Fill.buyF 1 10, Fill.sellF 1 12]).position : ℚ) * 11 =
        10000 + (applyFills [Fill.buyF 1 10, Fill.sellF 1 12]).realized_pnl +
          unrealized_pnl (applyFills [Fill.buyF 1 10, Fill.sellF 1 12]) 11 := by
  have hok : ∀ f ∈ [Fill.buyF 1 10, Fill.sellF 1 12], okFill f := by
    intro f hf
    simp only [List.mem_cons, List.mem_singleton] at hf
    rcases hf with rfl | rfl | h
    · exact Int.one_pos
    · trivial
    · exact absurd h (List.not_mem_nil f)
  exact ⟨hok, ledger_conservation [Fill.buyF 1 10, Fill.sellF 1 12] 11 hok⟩

/-- C9 — a BUY fill of quantity q at price p > 0 from a nonnegatively held
state sets the average price to `(oldQty·oldAvg + q·p)/(oldQty+q)` and lowers
cash by `q·p`; and a SELL covering the whole held position resets the average
price to 0 along with the position. -/
theorem buy_averaging_and_sell_reset :
    (∀ (st : Ledger) (qty : ℤ) (price : ℚ), 0 ≤ st.position → 0 < qty → 0 < price →
      (execute_buy st qty price).avg_price =
          ((st.position : ℚ) * st.avg_price + (qty : ℚ) * price) /
            ((st.position : ℚ) + (qty : ℚ)) ∧
        (execute_buy st qty price).cash = st.cash - (qty : ℚ) * price) ∧
    (∀ (st : Ledger) (qty : ℤ) (price : ℚ), 0 < price → 0 < st.position →
      st.position ≤ qty →
      (execute_sell st qty price).position = 0 ∧
        (execute_sell st qty price).avg_price = 0) := by
  constructor
  · intro st qty price hpos hq hp
    rw [execute_buy, if_pos hp]
    dsimp only
    constructor
    · push_cast
      ring
    · ring
  · intro st qty price hp hpos hle
    rw [execute_sell, if_pos ⟨hp, hpos⟩]
    dsimp only
    have hm : min qty st.position = st.position := by omega
    rw [hm]
    exact ⟨by omega, by simp⟩

/-- Witness for C9: a first buy of 1 at 10 on the flat ledger, and a sell of
5 at 12 against a held position of 2. -/
theorem buy_averaging_and_sell_reset_witness :
    ((execute_buy ⟨0, 0, 10000, 0⟩ 1 10).avg_price =
        (((0 : ℤ) : ℚ) * 0 + ((1 : ℤ) : ℚ) * 10) / (((0 : ℤ) : ℚ) + ((1 : ℤ) : ℚ)) ∧
      (execute_buy ⟨0, 0, 10000, 0⟩ 1 10).cash = 10000 - ((1 : ℤ) : ℚ) * 10) ∧
    ((execute_sell ⟨2, 10, 100, 0⟩ 5 12).position = 0 ∧
      (execute_sell ⟨2, 10, 100, 0⟩ 5 12).avg_price = 0) :=
  ⟨buy_averaging_and_sell_reset.1 ⟨0, 0, 10000, 0⟩ 1 10 (by decide) (by decide)
      (by norm_num),
   buy_averaging_and_sell_reset.2 ⟨2, 10, 100, 0⟩ 5 12 (by norm_num) (by decide)
      (by decide)⟩

/-- C4, counterexample — a SELL of 5 against a held position of 2 is not
rejected: `execute_sell` caps the quantity at the position, sells it, and the
ledger changes (cash 100 → 124, realized PnL 0 → 4, position 2 → 0). -/
theorem oversell_not_rejected :
    (⟨2, 10, 100, 0⟩ : Ledger).position < 5 ∧
      execute_sell ⟨2, 10, 100, 0⟩ 5 12 = ⟨0, 0, 124, 4⟩ ∧
      execute_sell ⟨2, 10, 100, 0⟩ 5 12 ≠ ⟨2, 10, 100, 0⟩ := by
  have hm : min (5 : ℤ) 2 = 2 := by decide
  have hres : execute_sell ⟨2, 10, 100, 0⟩ 5 12 = ⟨0, 0, 124, 4⟩ := by
    rw [execute_sell, if_pos ⟨by norm_num, by decide⟩]
    dsimp only
    rw [hm]
    norm_num [Ledger.mk.injEq]
  refine ⟨by decide, hres, ?_⟩
  rw [hres]
  simp only [ne_eq, Ledger.mk.injEq, not_and]
  intro h
  exact absurd h (by norm_num)

/-- C4, amended — a SELL of more than the held (positive) position is capped
to the held quantity and executed: the whole position is sold at the given
price, cash and realized PnL are updated for the sold amount, and the average
price resets with the now-flat position; no rejection occurs and the position
never goes negative. -/
theorem oversell_capped (st : Ledger) (qty : ℤ) (price : ℚ)
    (hp : 0 < price) (hpos : 0 < st.position) (hle : st.position ≤ qty) :
    execute_sell st qty price =
      { position := 0, avg_price := 0, cash := st.cash + price * (st.position : ℚ),
        realized_pnl := st.realized_pnl + (price - st.avg_price) * (st.position : ℚ) } := by
  rw [execute_sell, if_pos ⟨hp, hpos⟩]
  dsimp only
  have hm : min qty st.position = st.position := by omega
  rw [hm]
  rw [Ledger.mk.injEq]
  exact ⟨by omega, by simp, rfl, rfl⟩

/-- Witness for C4's amended statement at the counterexample's input. -/
theorem oversell_capped_witness :
    (0 : ℚ) < 12 ∧ (0 : ℤ) < 2 ∧ (2 : ℤ) ≤ 5 ∧
      execute_sell ⟨2, 10, 100, 0⟩ 5 12 =
        ⟨0, 0, 100 + 12 * ((2 : ℤ) : ℚ), 0 + (12 - 10) * ((2 : ℤ) : ℚ)⟩ := by
  refine ⟨by norm_num, by decide, by decide, ?_⟩
  exact oversell_capped ⟨2, 10, 100, 0⟩ 5 12 (by norm_num) (by decide) (by decide)

end Onds
